import Mathlib

/-!
Verification of the browser audio relay of py-xiaozhi.

The development shallowly embeds the two core source files:

* `src/webapp/audio.py` — `WebAudioBridge`, the session registry: client
  lifecycle, control-message dispatch, microphone frame intake, broadcast of
  device state and speaker PCM, and the derived status query.
* `src/plugins/web_audio.py` — `WebAudioPlugin`, the frame
  accumulator/forwarder (`_on_microphone_bytes`, `_forward_audio`,
  `_ensure_connection`, `_should_send_microphone_audio`) and the inbound
  decoder path (`on_incoming_audio`).

Bytes are `List Nat`; async methods become pure state-passing functions that
additionally return a trace of the externally observable calls they perform
(sends, encode/decode invocations, reconnect attempts, log lines).  External
capabilities (codec, upstream protocol, per-client transports) are modelled as
function/flag parameters whose `Option`/`Bool` results stand for "the call
raised" / "the call returned this value".
-/

/-- Raw audio/network payloads: a byte string as a list of byte values. -/
abbrev Bytes := List Nat

/-- Modelled from the spec: `DeviceState` lives in `src/constants/constants.py`,
which is outside the reviewed core; the spec enumerates the states
{idle, listening, speaking} (plus whatever else the app uses — only
equality with LISTENING / SPEAKING matters to the relay). -/
inductive DeviceState where
  | idle
  | listening
  | speaking
  | connecting
  deriving DecidableEq, Repr

/-- Modelled from the spec: `ListeningMode` lives in
`src/constants/constants.py`; the relay only compares against REALTIME. -/
inductive ListeningMode where
  | realtime
  | autoStop
  | manual
  deriving DecidableEq, Repr

/-- Modelled from the spec: the sample-rate / frame-size constants of
`AudioConfig` (`src/constants/constants.py`) are configuration-derived; the
spec keeps them as parameters, so the embedding does too. -/
structure AudioConfig where
  inputSampleRate : Nat
  outputSampleRate : Nat
  inputFrameSize : Nat
  outputFrameSize : Nat
  deriving DecidableEq, Repr

/-! ## Microphone frame accumulator (`WebAudioPlugin._on_microphone_bytes`)

The Python loop

```
while len(self._buffer) >= frame_bytes:
    chunk = bytes(self._buffer[:frame_bytes])
    del self._buffer[:frame_bytes]
    await self._forward_audio(chunk)
```

is embedded as `drainFrames`, returning the final buffer together with the
ordered list of frame slices handed to `_forward_audio`.  The loop only
terminates for a positive frame size, which holds in the source
(`frame_bytes = AudioConfig.INPUT_FRAME_SIZE * 2 > 0`); the embedding guards
the recursion on `0 < fb` accordingly. -/

/-- The slicing loop of `_on_microphone_bytes`: repeatedly cut `fb` bytes off
the front of `buf` while at least `fb` bytes remain.  Returns the leftover
buffer and the frames in arrival order. -/
def drainFrames (fb : Nat) (buf : Bytes) : Bytes × List Bytes :=
  if _h : 0 < fb ∧ fb ≤ buf.length then
    ((drainFrames fb (buf.drop fb)).1,
      buf.take fb :: (drainFrames fb (buf.drop fb)).2)
  else
    (buf, [])
termination_by buf.length
decreasing_by
  all_goals simp only [List.length_drop]
  all_goals omega

/-- `WebAudioPlugin._on_microphone_bytes`: ignore empty chunks, otherwise
append to the accumulator and drain all complete frames. -/
def onMicrophoneBytes (fb : Nat) (buf : Bytes) (data : Bytes) :
    Bytes × List Bytes :=
  if data = [] then (buf, [])
  else drainFrames fb (buf ++ data)

/-- A whole sequence of `accept(chunk)` calls starting from buffer `buf`,
collecting every forwarded frame in order. -/
def processChunksFrom (fb : Nat) (buf : Bytes) (frames : List Bytes)
    (cs : List Bytes) : Bytes × List Bytes :=
  match cs with
  | [] => (buf, frames)
  | c :: cs =>
      let r := onMicrophoneBytes fb buf c
      processChunksFrom fb r.1 (frames ++ r.2) cs

/-- A sequence of `accept(chunk)` calls on a fresh plugin (empty buffer). -/
def processChunks (fb : Nat) (cs : List Bytes) : Bytes × List Bytes :=
  processChunksFrom fb [] [] cs

/-- Everything the drain loop does, in one induction: the emitted frames
followed by the leftover buffer reassemble the input (order preservation),
the leftover buffer is strictly shorter than one frame, and every emitted
frame is exactly one frame long. -/
lemma drainFrames_spec (fb : Nat) (hfb : 0 < fb) (buf : Bytes) :
    (drainFrames fb buf).2.flatten ++ (drainFrames fb buf).1 = buf ∧
      (drainFrames fb buf).1.length < fb ∧
      ∀ f ∈ (drainFrames fb buf).2, f.length = fb := by
  generalize hn : buf.length = n
  induction n using Nat.strong_induction_on generalizing buf with
  | _ n ih =>
    rw [drainFrames]
    by_cases h : 0 < fb ∧ fb ≤ buf.length
    · simp only [dif_pos h]
      have hlt : (buf.drop fb).length < n := by
        simp only [List.length_drop]
        omega
      obtain ⟨hjoin, hblt, hflen⟩ := ih _ hlt (buf.drop fb) rfl
      refine ⟨?_, hblt, ?_⟩
      · rw [List.flatten_cons, List.append_assoc, hjoin, List.take_append_drop]
      · intro f hf
        rcases List.mem_cons.mp hf with hf | hf
        · subst hf
          simp only [List.length_take]
          omega
        · exact hflen f hf
    · simp only [dif_neg h]
      refine ⟨by simp, ?_, by simp⟩
      omega

/-- `_on_microphone_bytes` keeps the accumulator invariant and loses no byte:
starting from a buffer shorter than one frame, the frames it emits followed by
the leftover buffer equal the old buffer followed by the new chunk, the
leftover stays shorter than one frame, and every emitted frame is full-size. -/
lemma onMicrophoneBytes_spec (fb : Nat) (hfb : 0 < fb) (buf data : Bytes)
    (hbuf : buf.length < fb) :
    (onMicrophoneBytes fb buf data).2.flatten ++ (onMicrophoneBytes fb buf data).1
        = buf ++ data ∧
      (onMicrophoneBytes fb buf data).1.length < fb ∧
      ∀ f ∈ (onMicrophoneBytes fb buf data).2, f.length = fb := by
  unfold onMicrophoneBytes
  by_cases hd : data = []
  · subst hd
    simp only [if_pos rfl]
    exact ⟨by simp, hbuf, by simp⟩
  · simp only [if_neg hd]
    exact drainFrames_spec fb hfb (buf ++ data)

/-- The fold over a chunk sequence preserves the accumulator invariant and
reassembly: frames collected so far ++ buffer ++ remaining chunks is constant. -/
lemma processChunksFrom_spec (fb : Nat) (hfb : 0 < fb) (cs : List Bytes) :
    ∀ (buf : Bytes) (frames : List Bytes), buf.length < fb →
      (∀ f ∈ frames, f.length = fb) →
      (processChunksFrom fb buf frames cs).2.flatten
          ++ (processChunksFrom fb buf frames cs).1
            = frames.flatten ++ buf ++ cs.flatten ∧
        (processChunksFrom fb buf frames cs).1.length < fb ∧
        ∀ f ∈ (processChunksFrom fb buf frames cs).2, f.length = fb := by
  induction cs with
  | nil =>
      intro buf frames hbuf hframes
      exact ⟨by simp [processChunksFrom], hbuf, hframes⟩
  | cons c cs ih =>
      intro buf frames hbuf hframes
      obtain ⟨hjoin, hblt, hflen⟩ := onMicrophoneBytes_spec fb hfb buf c hbuf
      have hframes' : ∀ f ∈ frames ++ (onMicrophoneBytes fb buf c).2,
          f.length = fb := by
        intro f hf
        rcases List.mem_append.mp hf with hf | hf
        · exact hframes f hf
        · exact hflen f hf
      obtain ⟨hj, hb, hl⟩ := ih (onMicrophoneBytes fb buf c).1
        (frames ++ (onMicrophoneBytes fb buf c).2) hblt hframes'
      refine ⟨?_, ?_, ?_⟩
      · show (processChunksFrom fb (onMicrophoneBytes fb buf c).1
            (frames ++ (onMicrophoneBytes fb buf c).2) cs).2.flatten
            ++ (processChunksFrom fb (onMicrophoneBytes fb buf c).1
            (frames ++ (onMicrophoneBytes fb buf c).2) cs).1
            = frames.flatten ++ buf ++ (c :: cs).flatten
        rw [hj, List.flatten_append, List.flatten_cons]
        calc frames.flatten ++ (onMicrophoneBytes fb buf c).2.flatten
              ++ (onMicrophoneBytes fb buf c).1 ++ cs.flatten
            = frames.flatten ++ ((onMicrophoneBytes fb buf c).2.flatten
              ++ (onMicrophoneBytes fb buf c).1) ++ cs.flatten := by
                simp [List.append_assoc]
          _ = frames.flatten ++ (buf ++ c) ++ cs.flatten := by rw [hjoin]
          _ = frames.flatten ++ buf ++ (c ++ cs.flatten) := by
                simp [List.append_assoc]
      · exact hb
      · exact hl

/-- A list of full-size frames flattens to `count * fb` bytes. -/
lemma flatten_length_of_full (fb : Nat) :
    ∀ (l : List Bytes), (∀ f ∈ l, f.length = fb) →
      l.flatten.length = l.length * fb := by
  intro l
  induction l with
  | nil => intro _; simp
  | cons f l ih =>
      intro h
      have hf : f.length = fb := h f (List.mem_cons_self f l)
      have hl := ih (fun g hg => h g (List.mem_cons_of_mem f hg))
      simp [List.flatten_cons, hf, hl, Nat.succ_mul, Nat.add_comm]

/-- Euclidean uniqueness for the frame count / remainder decomposition. -/
lemma mul_add_lt_unique (n a b c d : Nat) (hb : b < n) (hd : d < n)
    (h : a * n + b = c * n + d) : a = c ∧ b = d := by
  have hn : 0 < n := Nat.pos_of_ne_zero (by rintro rfl; omega)
  have ha : (a * n + b) / n = a := by
    rw [Nat.add_comm, Nat.add_mul_div_right _ _ hn, Nat.div_eq_of_lt hb,
      Nat.zero_add]
  have hc : (c * n + d) / n = c := by
    rw [Nat.add_comm, Nat.add_mul_div_right _ _ hn, Nat.div_eq_of_lt hd,
      Nat.zero_add]
  have hac : a = c := by rw [← ha, ← hc, h]
  subst hac
  exact ⟨rfl, by omega⟩

/-- C1: for every sequence of `accept(chunk)` calls whose total byte length is
`K * frameByteSize + R` with `0 ≤ R < frameByteSize`, the forwarder slices and
forwards exactly `K` frames of exactly `frameByteSize` bytes each in original
arrival order, after every individual accept call the accumulator holds
strictly fewer than `frameByteSize` bytes, and exactly `R` bytes remain
buffered at the end. -/
theorem mic_forwarder_slices_exact_frames (fb K R : Nat) (hfb : 0 < fb)
    (hR : R < fb) (cs : List Bytes)
    (htot : (cs.map List.length).sum = K * fb + R) :
    (processChunks fb cs).2.length = K ∧
      (∀ f ∈ (processChunks fb cs).2, f.length = fb) ∧
      (processChunks fb cs).2.flatten ++ (processChunks fb cs).1 = cs.flatten ∧
      (processChunks fb cs).1.length = R ∧
      ∀ pre suf, cs = pre ++ suf → (processChunks fb pre).1.length < fb := by
  obtain ⟨hjoin, hblt, hflen⟩ :=
    processChunksFrom_spec fb hfb cs [] [] (by simpa using hfb) (by simp)
  have hjoin' : (processChunks fb cs).2.flatten ++ (processChunks fb cs).1
      = cs.flatten := by
    simpa [processChunks] using hjoin
  have hflen' : ∀ f ∈ (processChunks fb cs).2, f.length = fb := by
    simpa [processChunks] using hflen
  have hblt' : (processChunks fb cs).1.length < fb := by
    simpa [processChunks] using hblt
  have hcount : (processChunks fb cs).2.flatten.length
      = (processChunks fb cs).2.length * fb :=
    flatten_length_of_full fb _ hflen'
  have htotal : cs.flatten.length = K * fb + R := by
    rw [List.length_flatten]
    exact htot
  have hsum : (processChunks fb cs).2.length * fb
      + (processChunks fb cs).1.length = K * fb + R := by
    have := congrArg List.length hjoin'
    simpa [List.length_append, hcount, htotal] using this
  obtain ⟨hK, hRR⟩ :=
    mul_add_lt_unique fb _ _ K R hblt' hR hsum
  refine ⟨hK, hflen', hjoin', hRR, ?_⟩
  intro pre _suf _hsplit
  have := (processChunksFrom_spec fb hfb pre [] [] (by simpa using hfb)
    (by simp)).2.1
  simpa [processChunks] using this

/-- Witness for C1 at `frameByteSize = 2`, chunks `[1,2,3]` and `[4,5,6,7]`
(total `7 = 3 * 2 + 1`): three full frames are forwarded. -/
theorem mic_forwarder_slices_exact_frames_witness :
    0 < 2 ∧ 1 < 2 ∧
      (([[1, 2, 3], [4, 5, 6, 7]] : List Bytes).map List.length).sum
        = 3 * 2 + 1 ∧
      (processChunks 2 [[1, 2, 3], [4, 5, 6, 7]]).2.length = 3 :=
  ⟨by decide, by decide, by decide,
    (mic_forwarder_slices_exact_frames 2 3 1 (by decide) (by decide)
      [[1, 2, 3], [4, 5, 6, 7]] (by decide)).1⟩

/-! ## Forwarding a sliced frame (`WebAudioPlugin._forward_audio`)

External collaborators become data: the upstream protocol object carries the
outcome of `is_audio_channel_opened()` (`none` = the call raised) and the app
carries the outcome of `connect_protocol()` (`none` = raised).  The Opus
encoder/decoder are `Option`-valued functions (`none` = the codec call
raised); a `none` slot for the whole encoder/decoder models
`self._encoder is None`.  Each run returns the trace of external calls. -/

/-- Externally observable calls of the plugin paths. -/
inductive FAction where
  | connectAttempt
  | encodeCall (pcm : Bytes)
  | sendCall (frame : Bytes)
  | decodeCall (data : Bytes) (frameSize : Nat)
  | broadcastCall (pcm : Bytes)
  deriving DecidableEq, Repr

/-- The upstream protocol handle as `_forward_audio` sees it. -/
structure Protocol where
  isOpenResult : Option Bool
  sendOk : Bool
  deriving DecidableEq, Repr

/-- The owning application as the plugin reads it via attributes. An absence
modelled by `getattr(..., default)` in the source keeps its default here. -/
structure App where
  protocol : Option Protocol
  connectResult : Option Bool
  device_state : DeviceState
  aborted : Bool
  aec_enabled : Bool
  keep_listening : Bool
  listening_mode : Option ListeningMode
  deriving DecidableEq, Repr

/-- `WebAudioPlugin._should_send_microphone_audio`. -/
def shouldSendMicrophoneAudio (app : Option App) : Bool :=
  match app with
  | none => false
  | some a =>
      (decide (a.device_state = DeviceState.listening) && !a.aborted)
        || (decide (a.device_state = DeviceState.speaking)
            && a.aec_enabled && a.keep_listening
            && decide (a.listening_mode = some ListeningMode.realtime))

/-- `WebAudioPlugin._ensure_connection`: if the open-check returns `True` the
channel is used as is; if it returns `False` or raises, exactly one
`connect_protocol()` attempt is made, whose own exception yields `False`. -/
def ensureConnection (app : App) (p : Protocol) : Bool × List FAction :=
  match p.isOpenResult with
  | some true => (true, [])
  | _ =>
      match app.connectResult with
      | none => (false, [FAction.connectAttempt])
      | some b => (b, [FAction.connectAttempt])

/-- `WebAudioPlugin._forward_audio` on one sliced frame.  The accumulator
buffer `buf` is threaded through untouched, exactly as the source method
never reads or writes `self._buffer`. -/
def forwardAudio (appOpt : Option App) (enc : Option (Bytes → Option Bytes))
    (buf : Bytes) (pcm16 : Bytes) : Bytes × List FAction :=
  match appOpt, enc with
  | some app, some encode =>
      match app.protocol with
      | none => (buf, [])
      | some protocol =>
          let conn := ensureConnection app protocol
          if !conn.1 then (buf, conn.2)
          else if !shouldSendMicrophoneAudio (some app) then (buf, conn.2)
          else
            match encode pcm16 with
            | none => (buf, conn.2 ++ [FAction.encodeCall pcm16])
            | some encoded =>
                if encoded = [] then (buf, conn.2 ++ [FAction.encodeCall pcm16])
                else
                  (buf, conn.2
                    ++ [FAction.encodeCall pcm16, FAction.sendCall encoded])
  | _, _ => (buf, [])

/-! ## Inbound decode path (`WebAudioPlugin.on_incoming_audio`) -/

/-- `WebAudioPlugin.on_incoming_audio` on one inbound compressed frame:
empty data or a missing decoder is ignored; a decode exception is caught and
logged; a truthy (non-empty) PCM result is handed whole to the bridge
broadcast. -/
def onIncomingAudio (dec : Option (Bytes → Option Bytes)) (ofs : Nat)
    (data : Bytes) : List FAction :=
  match dec with
  | none => []
  | some decode =>
      if data = [] then []
      else
        match decode data with
        | none => [FAction.decodeCall data ofs]
        | some pcm =>
            if pcm = [] then [FAction.decodeCall data ofs]
            else [FAction.decodeCall data ofs, FAction.broadcastCall pcm]

/-- A run of `on_incoming_audio` over a sequence of inbound frames; the
method keeps no state between calls, so the traces concatenate. -/
def processIncoming (dec : Option (Bytes → Option Bytes)) (ofs : Nat) :
    List Bytes → List FAction
  | [] => []
  | d :: ds => onIncomingAudio dec ofs d ++ processIncoming dec ofs ds

/-- The trace-append lemma behind "one bad frame never blocks later frames":
`on_incoming_audio` keeps no state between calls. -/
lemma processIncoming_append (dec : Option (Bytes → Option Bytes)) (ofs : Nat)
    (xs ys : List Bytes) :
    processIncoming dec ofs (xs ++ ys)
      = processIncoming dec ofs xs ++ processIncoming dec ofs ys := by
  induction xs with
  | nil => simp [processIncoming]
  | cons d ds ih => simp [processIncoming, ih]

/-- C2 (amended): with the upstream channel open and a frame reaching the
forwarder, assuming the codec encodes successfully and non-emptily, encode
and upstream send happen exactly once if and only if the gate
`_should_send_microphone_audio` holds, and that gate holds iff the device is
LISTENING *and not aborted*, or SPEAKING with echo-cancellation enabled,
continuous listening on, and realtime listening mode; otherwise the frame is
dropped with no external call at all. -/
theorem forward_state_gate (app : App) (p : Protocol)
    (encode : Bytes → Option Bytes) (buf pcm e : Bytes)
    (hproto : app.protocol = some p) (hopen : p.isOpenResult = some true)
    (henc : encode pcm = some e) (he : e ≠ []) :
    (forwardAudio (some app) (some encode) buf pcm).2
        = (if shouldSendMicrophoneAudio (some app) then
            [FAction.encodeCall pcm, FAction.sendCall e]
          else []) ∧
      (shouldSendMicrophoneAudio (some app) = true ↔
        ((app.device_state = DeviceState.listening ∧ app.aborted = false) ∨
          (app.device_state = DeviceState.speaking ∧ app.aec_enabled = true ∧
            app.keep_listening = true ∧
            app.listening_mode = some ListeningMode.realtime))) := by
  constructor
  · by_cases hs : shouldSendMicrophoneAudio (some app) = true
    · simp [forwardAudio, hproto, ensureConnection, hopen, hs, henc, he]
    · simp [forwardAudio, hproto, ensureConnection, hopen, hs, henc, he]
  · simp only [shouldSendMicrophoneAudio, Bool.or_eq_true, Bool.and_eq_true,
      decide_eq_true_eq, Bool.not_eq_true']
    tauto

/-- C2 counterexample: the device is LISTENING but `aborted` is set — the
claim as stated requires one encode and one send, yet the forwarder performs
no external call on the frame. -/
theorem forward_state_gate_counterexample :
    (App.device_state
        { protocol := some { isOpenResult := some true, sendOk := true },
          connectResult := some true, device_state := DeviceState.listening,
          aborted := true, aec_enabled := false, keep_listening := false,
          listening_mode := none } = DeviceState.listening) ∧
      (forwardAudio
          (some { protocol := some { isOpenResult := some true, sendOk := true },
                  connectResult := some true,
                  device_state := DeviceState.listening, aborted := true,
                  aec_enabled := false, keep_listening := false,
                  listening_mode := none })
          (some fun _ => some [9]) [] [1, 2]).2 = [] :=
  ⟨rfl, rfl⟩

/-- Witness for C2 at a LISTENING, non-aborted app with an open channel. -/
theorem forward_state_gate_witness :
    (App.protocol
        { protocol := some { isOpenResult := some true, sendOk := true },
          connectResult := some true, device_state := DeviceState.listening,
          aborted := false, aec_enabled := false, keep_listening := false,
          listening_mode := none }
      = some { isOpenResult := some true, sendOk := true }) ∧
      (Protocol.isOpenResult { isOpenResult := some true, sendOk := true }
        = some true) ∧
      ((fun _ : Bytes => some ([7] : Bytes)) [1] = some [7]) ∧
      ([7] : Bytes) ≠ [] ∧
      (forwardAudio
          (some { protocol := some { isOpenResult := some true, sendOk := true },
                  connectResult := some true,
                  device_state := DeviceState.listening, aborted := false,
                  aec_enabled := false, keep_listening := false,
                  listening_mode := none })
          (some fun _ => some [7]) [] [1]).2
        = (if shouldSendMicrophoneAudio
              (some { protocol := some { isOpenResult := some true, sendOk := true },
                      connectResult := some true,
                      device_state := DeviceState.listening, aborted := false,
                      aec_enabled := false, keep_listening := false,
                      listening_mode := none }) then
            [FAction.encodeCall [1], FAction.sendCall [7]]
          else []) :=
  ⟨rfl, rfl, rfl, by decide,
    (forward_state_gate _ _ (fun _ => some [7]) [] [1] [7] rfl rfl rfl
      (by decide)).1⟩

/-- C6: a frame processed while the upstream channel is not open (the
open-check returns `False` or raises) triggers exactly one reconnect
attempt, whatever that attempt returns; and when the attempt fails (returns
`False` or raises), the frame is dropped — the trace holds the single
reconnect attempt and nothing else (no encode, no send, no queueing), and
the accumulator buffer comes back unchanged. -/
theorem forward_drops_without_upstream (app : App) (p : Protocol)
    (encode : Bytes → Option Bytes) (buf pcm : Bytes)
    (hproto : app.protocol = some p)
    (hclosed : p.isOpenResult ≠ some true) :
    ((forwardAudio (some app) (some encode) buf pcm).2.count
        FAction.connectAttempt = 1) ∧
      (app.connectResult = some false ∨ app.connectResult = none →
        forwardAudio (some app) (some encode) buf pcm
          = (buf, [FAction.connectAttempt])) := by
  obtain ⟨b, hconn⟩ : ∃ b, ensureConnection app p
      = (b, [FAction.connectAttempt]) := by
    unfold ensureConnection
    cases hq : p.isOpenResult with
    | none => cases app.connectResult <;> exact ⟨_, rfl⟩
    | some bb =>
        cases bb with
        | true => exact absurd hq hclosed
        | false => cases app.connectResult <;> exact ⟨_, rfl⟩
  constructor
  · cases b with
    | false => simp [forwardAudio, hproto, hconn]
    | true =>
        by_cases hs : shouldSendMicrophoneAudio (some app) = true
        · cases he : encode pcm with
          | none => simp [forwardAudio, hproto, hconn, hs, he]
          | some e =>
              by_cases hee : e = [] <;>
                simp [forwardAudio, hproto, hconn, hs, he, hee]
        · simp [forwardAudio, hproto, hconn, hs]
  · intro hfail
    have hb : b = false := by
      rcases hfail with hf | hf <;>
        · unfold ensureConnection at hconn
          cases hq : p.isOpenResult with
          | none => rw [hq, hf] at hconn; exact (Prod.mk.injEq .. ▸ hconn).1.symm ▸ rfl
          | some bb =>
              cases bb with
              | true => exact absurd hq hclosed
              | false => rw [hq, hf] at hconn; exact (Prod.mk.injEq .. ▸ hconn).1.symm ▸ rfl
    subst hb
    simp [forwardAudio, hproto, hconn]

/-- Witness for C6: channel reports closed, reconnect returns `False`. -/
theorem forward_drops_without_upstream_witness :
    (App.protocol
        { protocol := some { isOpenResult := some false, sendOk := true },
          connectResult := some false, device_state := DeviceState.listening,
          aborted := false, aec_enabled := false, keep_listening := false,
          listening_mode := none }
      = some { isOpenResult := some false, sendOk := true }) ∧
      (Protocol.isOpenResult { isOpenResult := some false, sendOk := true }
        ≠ some true) ∧
      ((forwardAudio
          (some { protocol := some { isOpenResult := some false, sendOk := true },
                  connectResult := some false,
                  device_state := DeviceState.listening, aborted := false,
                  aec_enabled := false, keep_listening := false,
                  listening_mode := none })
          (some fun _ => some [7]) [3] [1]).2.count FAction.connectAttempt = 1) ∧
      (App.connectResult
          { protocol := some { isOpenResult := some false, sendOk := true },
            connectResult := some false, device_state := DeviceState.listening,
            aborted := false, aec_enabled := false, keep_listening := false,
            listening_mode := none } = some false ∨
        App.connectResult
          { protocol := some { isOpenResult := some false, sendOk := true },
            connectResult := some false, device_state := DeviceState.listening,
            aborted := false, aec_enabled := false, keep_listening := false,
            listening_mode := none } = none →
        forwardAudio
            (some { protocol := some { isOpenResult := some false, sendOk := true },
                    connectResult := some false,
                    device_state := DeviceState.listening, aborted := false,
                    aec_enabled := false, keep_listening := false,
                    listening_mode := none })
            (some fun _ => some [7]) [3] [1]
          = ([3], [FAction.connectAttempt])) :=
  ⟨rfl, by decide,
    forward_drops_without_upstream _ _ (fun _ => some [7]) [3] [1] rfl
      (by decide)⟩

/-- C7 (amended): every non-empty inbound compressed frame is decoded exactly
once; a decode exception is caught — the trace shows only the decode call, no
broadcast, and no exception escapes — and since the method keeps no state,
the traces of consecutive frames concatenate, so later frames are still
decoded and broadcast; a successful decode with a non-empty PCM result is
passed whole, in a single call, to the bridge broadcast (an empty successful
decode is dropped without broadcasting). -/
theorem decode_failure_isolated (decode : Bytes → Option Bytes) (ofs : Nat)
    (data pcm : Bytes) (xs ys : List Bytes) (hdata : data ≠ []) :
    ((onIncomingAudio (some decode) ofs data).count
        (FAction.decodeCall data ofs) = 1) ∧
      (decode data = none →
        onIncomingAudio (some decode) ofs data
          = [FAction.decodeCall data ofs]) ∧
      (decode data = some pcm → pcm ≠ [] →
        onIncomingAudio (some decode) ofs data
          = [FAction.decodeCall data ofs, FAction.broadcastCall pcm]) ∧
      processIncoming (some decode) ofs (xs ++ ys)
        = processIncoming (some decode) ofs xs
          ++ processIncoming (some decode) ofs ys := by
  refine ⟨?_, ?_, ?_, processIncoming_append _ _ xs ys⟩
  · unfold onIncomingAudio
    dsimp only
    rw [if_neg hdata]
    cases hq : decode data with
    | none => simp
    | some p =>
        by_cases hp : p = []
        · simp [hp]
        · simp [hp, List.count_cons]
  · intro hq
    unfold onIncomingAudio
    dsimp only
    rw [if_neg hdata, hq]
  · intro hq hp
    unfold onIncomingAudio
    dsimp only
    rw [if_neg hdata, hq]
    dsimp only
    rw [if_neg hp]

/-- C7 counterexample: a decode that succeeds with an empty PCM result — the
claim as stated requires the result to be passed to the broadcast, but the
trace holds the decode call only. -/
theorem decode_failure_isolated_counterexample :
    ((fun _ : Bytes => some ([] : Bytes)) [1] = some ([] : Bytes)) ∧
      onIncomingAudio (some fun _ => some []) 960 [1]
        = [FAction.decodeCall [1] 960] :=
  ⟨rfl, rfl⟩

/-- Witness for C7 at a one-byte frame and a decoder yielding `[5]`. -/
theorem decode_failure_isolated_witness :
    ([1] : Bytes) ≠ [] ∧
      ((onIncomingAudio (some fun _ => some [5]) 960 [1]).count
          (FAction.decodeCall [1] 960) = 1) ∧
      ((fun _ : Bytes => some ([5] : Bytes)) [1] = none →
        onIncomingAudio (some fun _ => some [5]) 960 [1]
          = [FAction.decodeCall [1] 960]) ∧
      ((fun _ : Bytes => some ([5] : Bytes)) [1] = some [5] → ([5] : Bytes) ≠ [] →
        onIncomingAudio (some fun _ => some [5]) 960 [1]
          = [FAction.decodeCall [1] 960, FAction.broadcastCall [5]]) ∧
      processIncoming (some fun _ => some [5]) 960 ([[1]] ++ [[2]])
        = processIncoming (some fun _ => some [5]) 960 [[1]]
          ++ processIncoming (some fun _ => some [5]) 960 [[2]] :=
  ⟨by decide,
    decode_failure_isolated (fun _ => some [5]) 960 [1] [5] [[1]] [[2]]
      (by decide)⟩

/-! ## The session registry (`WebAudioBridge` in `src/webapp/audio.py`)

Sessions are identified by a numeric id standing for the websocket object.
`sendOk = false` means every send on that session's transport raises (the
broadcast paths catch and log such failures; the unprotected ping reply and
the connect handshake let them propagate, which the receive loop turns into
session removal).  `json.loads` either raises (`none`) or yields a `Json`
value; `datetime` timestamps become integer microseconds, so
`(now - last).total_seconds() < 2.0` becomes `now - last < 2000000`
(microsecond-resolution deltas below one day convert to float exactly enough
that the strict comparison against the representable value `2.0` agrees). -/

/-- A decoded JSON value, as `json.loads` produces it. -/
inductive Json where
  | null
  | bool (b : Bool)
  | num (n : Int)
  | str (s : String)
  | arr (xs : List Json)
  | obj (kvs : List (String × Json))

/-- Python truthiness of a decoded JSON value (`bool(...)`). -/
def jsonTruthy : Json → Bool
  | Json.null => false
  | Json.bool b => b
  | Json.num n => decide (n ≠ 0)
  | Json.str s => decide (s ≠ "")
  | Json.arr xs => !xs.isEmpty
  | Json.obj kvs => !kvs.isEmpty

/-- `dict.get(key)` on a decoded JSON object. -/
def lookupKey : List (String × Json) → String → Option Json
  | [], _ => none
  | (k, v) :: rest, key => if k = key then some v else lookupKey rest key

/-- `bool(payload.get("active"))`: a missing key is falsy. -/
def jsonOptTruthy : Option Json → Bool
  | none => false
  | some j => jsonTruthy j

/-- Control/handshake messages the bridge sends to a browser session. -/
inductive Msg where
  | config (inputSampleRate outputSampleRate frameSamples
      outputFrameSamples : Nat) (deviceState : DeviceState)
  | deviceState (s : DeviceState)
  | pong
  deriving DecidableEq, Repr

/-- Externally observable effects of the bridge. -/
inductive BAct where
  | sentText (sid : Nat) (m : Msg)
  | sentBytes (sid : Nat) (b : Bytes)
  | micHandler (data : Bytes)
  | logged
  deriving DecidableEq, Repr

/-- `_ClientState`: one browser session (id stands for the websocket). -/
structure Sess where
  id : Nat
  streaming : Bool
  sendOk : Bool
  deriving DecidableEq, Repr

/-- The mutable state of `WebAudioBridge`. -/
structure Bridge where
  clients : List Sess
  lastMicrophoneAt : Option Int
  lastSpeakerAt : Option Int
  lastDeviceState : DeviceState
  deriving DecidableEq, Repr

/-- `_remove_client`. -/
def removeClient (br : Bridge) (sid : Nat) : Bridge :=
  { br with clients := br.clients.filter (fun c => decide (c.id ≠ sid)) }

/-- Writing back a session object mutated in place by the source. -/
def updateClient (br : Bridge) (s : Sess) : Bridge :=
  { br with clients := br.clients.map (fun c => if c.id = s.id then s else c) }

/-- `broadcast_device_state`: record the state as last-known, then best-effort
send one control message to a snapshot of the sessions; a raising transport
is caught and logged. -/
def broadcastDeviceState (br : Bridge) (ds : DeviceState) :
    Bridge × List BAct :=
  let br1 := { br with lastDeviceState := ds }
  (br1, br1.clients.map fun s =>
    if s.sendOk then BAct.sentText s.id (Msg.deviceState ds) else BAct.logged)

/-- `broadcast_speaker_audio`: empty PCM returns immediately; otherwise
record `lastSpeakerAt`, then best-effort binary-send to a snapshot. -/
def broadcastSpeakerAudio (br : Bridge) (now : Int) (pcm : Bytes) :
    Bridge × List BAct :=
  if pcm = [] then (br, [])
  else
    let br1 := { br with lastSpeakerAt := some now }
    (br1, br1.clients.map fun s =>
      if s.sendOk then BAct.sentBytes s.id pcm else BAct.logged)

/-- `handle_client` up to the receive loop: accept, register the session,
send one config message then one device-state message (both carry the
last-known device state); a raising transport propagates and the `finally`
block removes the session again. -/
def handleClientConnect (cfg : AudioConfig) (br : Bridge) (nid : Nat)
    (transportOk : Bool) : Bridge × List BAct :=
  let s : Sess := { id := nid, streaming := false, sendOk := transportOk }
  let br1 := { br with clients := br.clients ++ [s] }
  if transportOk then
    (br1,
      [BAct.sentText nid (Msg.config cfg.inputSampleRate cfg.outputSampleRate
          cfg.inputFrameSize cfg.outputFrameSize br.lastDeviceState),
        BAct.sentText nid (Msg.deviceState br.lastDeviceState)])
  else
    (removeClient br1 nid, [BAct.logged])

/-- `_handle_text_message` on the outcome of `json.loads` (`none` = the text
did not parse).  A non-object JSON value makes `payload.get(...)` raise
`AttributeError`, which this method does not catch (`Except.error`); likewise
the ping reply's send may raise. -/
def handleTextMessage (s : Sess) (parsed : Option Json) :
    Except Unit (Sess × List BAct) :=
  match parsed with
  | none => Except.ok (s, [BAct.logged])
  | some (Json.obj kvs) =>
      match lookupKey kvs "type" with
      | some (Json.str t) =>
          if t = "mic" then
            Except.ok
              ({ s with streaming := jsonOptTruthy (lookupKey kvs "active") },
                [])
          else if t = "ping" then
            if s.sendOk then Except.ok (s, [BAct.sentText s.id Msg.pong])
            else Except.error ()
          else if t = "notice" then Except.ok (s, [BAct.logged])
          else Except.ok (s, [])
      | _ => Except.ok (s, [])
  | some _ => Except.error ()

/-- One textual message as the receive loop of `handle_client` processes it:
a propagating exception is caught at the loop level, logged, and the
`finally` block removes the session — the loop ends (third component
`false`). -/
def receiveTextStep (br : Bridge) (s : Sess) (parsed : Option Json) :
    Bridge × List BAct × Bool :=
  match handleTextMessage s parsed with
  | Except.ok (s', acts) => (updateClient br s', acts, true)
  | Except.error _ => (removeClient br s.id, [BAct.logged], false)

/-- `_handle_microphone_frame`: drop empty data, missing handler, or a
non-streaming session; otherwise record `lastMicrophoneAt`, then invoke the
microphone handler with the chunk, catching and logging its exceptions. -/
def handleMicrophoneFrame (br : Bridge) (s : Sess) (hasHandler : Bool)
    (handlerRaises : Bool) (data : Bytes) (now : Int) :
    Bridge × List BAct × Bool :=
  if data = [] then (br, [], true)
  else if !hasHandler then (br, [], true)
  else if !s.streaming then (br, [], true)
  else
    let br1 := { br with lastMicrophoneAt := some now }
    if handlerRaises then (br1, [BAct.micHandler data, BAct.logged], true)
    else (br1, [BAct.micHandler data], true)

/-- The activity window of `get_status`, in microseconds (`2.0` seconds). -/
def windowMicros : Int := 2000000

/-- The derived slice of the `get_status` payload relevant to the spec. -/
structure Status where
  connected : Bool
  microphoneStreaming : Bool
  microphoneActive : Bool
  speakerActive : Bool
  deriving DecidableEq, Repr

/-- `get_status`: a pure read of the bridge state (the source method performs
no assignment); the returned `Bridge` mirrors the state after the query. -/
def getStatus (br : Bridge) (now : Int) : Bridge × Status :=
  (br,
    { connected := !br.clients.isEmpty,
      microphoneStreaming := br.clients.any (·.streaming),
      microphoneActive :=
        match br.lastMicrophoneAt with
        | none => false
        | some t => decide (now - t < windowMicros),
      speakerActive :=
        match br.lastSpeakerAt with
        | none => false
        | some t => decide (now - t < windowMicros) })

/-- Writing back a session unchanged leaves the registry unchanged, provided
the session stored under its id is that session (the source mutates one
shared object in place, so this always holds there). -/
lemma updateClient_self (br : Bridge) (s : Sess)
    (hreg : ∀ c ∈ br.clients, c.id = s.id → c = s) :
    updateClient br s = br := by
  unfold updateClient
  have h : br.clients.map (fun c => if c.id = s.id then s else c)
      = br.clients := by
    conv_rhs => rw [← List.map_id br.clients]
    apply List.map_congr_left
    intro c hc
    by_cases hcs : c.id = s.id
    · rw [if_pos hcs, hreg c hc hcs]
      rfl
    · rw [if_neg hcs]
      rfl
  rw [h]

/-- `_handle_text_message` on an unparseable payload or an object with an
unrecognized `type` only logs (in the parse-failure case) or does nothing. -/
lemma handleTextMessage_unrecognized (s : Sess) (parsed : Option Json)
    (hkind : parsed = none ∨
      ∃ kvs, parsed = some (Json.obj kvs) ∧
        ∀ t, lookupKey kvs "type" = some (Json.str t) →
          t ≠ "mic" ∧ t ≠ "ping" ∧ t ≠ "notice") :
    handleTextMessage s parsed = Except.ok (s, [BAct.logged]) ∨
      handleTextMessage s parsed = Except.ok (s, []) := by
  rcases hkind with h | ⟨kvs, hp, ht⟩
  · subst h
    exact Or.inl rfl
  · subst hp
    unfold handleTextMessage
    dsimp only
    cases hq : lookupKey kvs "type" with
    | none => exact Or.inr rfl
    | some j =>
        cases j with
        | str t =>
            obtain ⟨h1, h2, h3⟩ := ht t hq
            dsimp only
            rw [if_neg h1, if_neg h2, if_neg h3]
            exact Or.inr rfl
        | null => exact Or.inr rfl
        | bool b => exact Or.inr rfl
        | num n => exact Or.inr rfl
        | arr xs => exact Or.inr rfl
        | obj kvs2 => exact Or.inr rfl

/-- C3 (amended): a textual payload that fails JSON parsing, or parses to a
JSON object whose `type` is none of mic/ping/notice, is ignored: the bridge
state (streaming flag, registry membership) is unchanged, no message is sent
(at most a log line is emitted — only the parse failure actually logs), and
the receive loop continues.  (A payload parsing to a non-object JSON value
instead raises out of the handler and ends the session, see the
counterexample.) -/
theorem malformed_control_ignored (br : Bridge) (s : Sess)
    (parsed : Option Json)
    (hkind : parsed = none ∨
      ∃ kvs, parsed = some (Json.obj kvs) ∧
        ∀ t, lookupKey kvs "type" = some (Json.str t) →
          t ≠ "mic" ∧ t ≠ "ping" ∧ t ≠ "notice")
    (hreg : ∀ c ∈ br.clients, c.id = s.id → c = s) :
    (receiveTextStep br s parsed).1 = br ∧
      (receiveTextStep br s parsed).2.2 = true ∧
      ∀ a ∈ (receiveTextStep br s parsed).2.1, a = BAct.logged := by
  rcases handleTextMessage_unrecognized s parsed hkind with h | h
  · unfold receiveTextStep
    rw [h]
    exact ⟨updateClient_self br s hreg, rfl, by
      intro a ha
      simpa using ha⟩
  · unfold receiveTextStep
    rw [h]
    exact ⟨updateClient_self br s hreg, rfl, by
      intro a ha
      simp at ha⟩

/-- C3 counterexample: the payload `1` is valid JSON but not an object;
`payload.get("type")` raises `AttributeError`, the receive loop ends and the
session is removed from the registry — the connection does not stay open. -/
theorem malformed_control_ignored_counterexample :
    (receiveTextStep
        { clients := [{ id := 0, streaming := true, sendOk := true }],
          lastMicrophoneAt := none, lastSpeakerAt := none,
          lastDeviceState := DeviceState.idle }
        { id := 0, streaming := true, sendOk := true }
        (some (Json.num 1))).2.2 = false ∧
      (receiveTextStep
          { clients := [{ id := 0, streaming := true, sendOk := true }],
            lastMicrophoneAt := none, lastSpeakerAt := none,
            lastDeviceState := DeviceState.idle }
          { id := 0, streaming := true, sendOk := true }
          (some (Json.num 1))).1.clients = [] :=
  ⟨rfl, rfl⟩

/-- A quiet registered session and a one-session registry, used as concrete
inputs by witnesses. -/
def quietSess : Sess :=
  { id := 0, streaming := false, sendOk := true }

/-- A one-session registry holding `quietSess`. -/
def quietBridge : Bridge :=
  { clients := [quietSess], lastMicrophoneAt := none, lastSpeakerAt := none,
    lastDeviceState := DeviceState.idle }

/-- Witness for C3 at a parse failure (`json.loads` raised) on a registry
holding the one session concerned. -/
theorem malformed_control_ignored_witness :
    ((none : Option Json) = none ∨
      ∃ kvs, (none : Option Json) = some (Json.obj kvs) ∧
        ∀ t, lookupKey kvs "type" = some (Json.str t) →
          t ≠ "mic" ∧ t ≠ "ping" ∧ t ≠ "notice") ∧
      (∀ c ∈ quietBridge.clients, c.id = quietSess.id → c = quietSess) ∧
      (receiveTextStep quietBridge quietSess none).2.2 = true :=
  ⟨Or.inl rfl, by decide,
    (malformed_control_ignored quietBridge quietSess none (Or.inl rfl)
      (by decide)).2.1⟩

/-- In a best-effort fan-out, the non-logged entries of the trace are exactly
the deliveries to the healthy sessions. -/
lemma bestEffort_delivered (l : List Sess) (g : Sess → BAct)
    (hg : ∀ s, g s ≠ BAct.logged) :
    ((l.map (fun s => if s.sendOk then g s else BAct.logged)).filter
        (fun a => decide (a ≠ BAct.logged))).length
      = (l.filter (·.sendOk)).length := by
  simp only [decide_not]
  induction l with
  | nil => rfl
  | cons s l ih =>
      by_cases hs : s.sendOk
      · simp [hs, List.filter_cons, hg s, ih]
      · simp [hs, List.filter_cons, ih]

/-- C4: both broadcasts (device state and speaker PCM) attempt each
registered session exactly once — the trace has one entry per snapshotted
session, never more (no retry) and never fewer (no abort) — a raising
transport contributes a caught-and-logged entry, every healthy session still
receives the message, and the number of deliveries equals the number of
healthy sessions (so one broken session among N still leaves N − 1
deliveries). -/
theorem broadcast_failure_isolation (br : Bridge) (ds : DeviceState)
    (now : Int) (pcm : Bytes) (hpcm : pcm ≠ []) :
    ((broadcastDeviceState br ds).2.length = br.clients.length ∧
      (∀ s ∈ br.clients, s.sendOk = true →
        BAct.sentText s.id (Msg.deviceState ds)
          ∈ (broadcastDeviceState br ds).2) ∧
      ((broadcastDeviceState br ds).2.filter
          (fun a => decide (a ≠ BAct.logged))).length
        = (br.clients.filter (·.sendOk)).length) ∧
    ((broadcastSpeakerAudio br now pcm).2.length = br.clients.length ∧
      (∀ s ∈ br.clients, s.sendOk = true →
        BAct.sentBytes s.id pcm ∈ (broadcastSpeakerAudio br now pcm).2) ∧
      ((broadcastSpeakerAudio br now pcm).2.filter
          (fun a => decide (a ≠ BAct.logged))).length
        = (br.clients.filter (·.sendOk)).length) := by
  have hdev : (broadcastDeviceState br ds).2
      = br.clients.map (fun s =>
          if s.sendOk then BAct.sentText s.id (Msg.deviceState ds)
          else BAct.logged) := rfl
  have hspk : (broadcastSpeakerAudio br now pcm).2
      = br.clients.map (fun s =>
          if s.sendOk then BAct.sentBytes s.id pcm else BAct.logged) := by
    unfold broadcastSpeakerAudio
    rw [if_neg hpcm]
  refine ⟨⟨?_, ?_, ?_⟩, ?_, ?_, ?_⟩
  · rw [hdev, List.length_map]
  · intro s hs hok
    rw [hdev]
    exact List.mem_map.mpr ⟨s, hs, by simp [hok]⟩
  · rw [hdev]
    exact bestEffort_delivered br.clients _ (fun s => by simp)
  · rw [hspk, List.length_map]
  · intro s hs hok
    rw [hspk]
    exact List.mem_map.mpr ⟨s, hs, by simp [hok]⟩
  · rw [hspk]
    exact bestEffort_delivered br.clients _ (fun s => by simp)

/-- A session whose transport raises on every send. -/
def brokenSess : Sess :=
  { id := 1, streaming := false, sendOk := false }

/-- A registry with one healthy and one broken session. -/
def mixedBridge : Bridge :=
  { clients := [quietSess, brokenSess], lastMicrophoneAt := none,
    lastSpeakerAt := none, lastDeviceState := DeviceState.idle }

/-- Witness for C4: two sessions, one broken — the PCM broadcast still
delivers to the other one (N − 1 = 1 deliveries). -/
theorem broadcast_failure_isolation_witness :
    ([1] : Bytes) ≠ [] ∧
      ((broadcastSpeakerAudio mixedBridge 7 [1]).2.filter
          (fun a => decide (a ≠ BAct.logged))).length
        = (mixedBridge.clients.filter (·.sendOk)).length :=
  ⟨by decide,
    (broadcast_failure_isolation mixedBridge DeviceState.listening 7 [1]
      (by decide)).2.2.2⟩

/-- C9 (amended): for every *non-empty* PCM payload, the speaker broadcast
records `lastSpeakerAt := now`, leaves the session set unchanged (the send
targets are a snapshot of it), attempts each snapshotted session exactly
once, and best-effort delivers the bytes to every healthy session.  An empty
payload returns before the timestamp update (see the counterexample). -/
theorem broadcast_pcm_records_time (br : Bridge) (now : Int) (pcm : Bytes)
    (hpcm : pcm ≠ []) :
    (broadcastSpeakerAudio br now pcm).1.lastSpeakerAt = some now ∧
      (broadcastSpeakerAudio br now pcm).1.clients = br.clients ∧
      (broadcastSpeakerAudio br now pcm).2.length = br.clients.length ∧
      ∀ s ∈ br.clients, s.sendOk = true →
        BAct.sentBytes s.id pcm ∈ (broadcastSpeakerAudio br now pcm).2 := by
  unfold broadcastSpeakerAudio
  rw [if_neg hpcm]
  refine ⟨rfl, rfl, List.length_map _ _, ?_⟩
  intro s hs hok
  exact List.mem_map.mpr ⟨s, hs, by simp [hok]⟩

/-- C9 counterexample: on the empty byte string the broadcast returns
immediately — `lastSpeakerAt` is *not* set to the current time. -/
theorem broadcast_pcm_records_time_counterexample :
    (broadcastSpeakerAudio quietBridge 5 []).1.lastSpeakerAt = none ∧
      (broadcastSpeakerAudio quietBridge 5 []).1.lastSpeakerAt ≠ some 5 :=
  ⟨rfl, by decide⟩

/-- Witness for C9 at a non-empty payload. -/
theorem broadcast_pcm_records_time_witness :
    ([2, 3] : Bytes) ≠ [] ∧
      (broadcastSpeakerAudio quietBridge 5 [2, 3]).1.lastSpeakerAt = some 5 :=
  ⟨by decide, (broadcast_pcm_records_time quietBridge 5 [2, 3] (by decide)).1⟩

/-- C5: a successful accept registers the session and then — before the
receive loop — sends exactly one configuration message (sample rates, frame
sizes, current device state) followed by one device-state message carrying
`lastDeviceState`; a session connecting after `broadcastState(listening)`
therefore receives `listening` in its connect handshake without waiting for
a new transition. -/
theorem connect_handshake_replays_state (cfg : AudioConfig) (br : Bridge)
    (nid : Nat) :
    ({ id := nid, streaming := false, sendOk := true } : Sess)
        ∈ (handleClientConnect cfg br nid true).1.clients ∧
      (handleClientConnect cfg br nid true).2
        = [BAct.sentText nid (Msg.config cfg.inputSampleRate
              cfg.outputSampleRate cfg.inputFrameSize cfg.outputFrameSize
              br.lastDeviceState),
            BAct.sentText nid (Msg.deviceState br.lastDeviceState)] ∧
      (handleClientConnect cfg
          (broadcastDeviceState br DeviceState.listening).1 nid true).2
        = [BAct.sentText nid (Msg.config cfg.inputSampleRate
              cfg.outputSampleRate cfg.inputFrameSize cfg.outputFrameSize
              DeviceState.listening),
            BAct.sentText nid (Msg.deviceState DeviceState.listening)] := by
  refine ⟨?_, rfl, rfl⟩
  unfold handleClientConnect
  simp

/-- C8: the status query is a pure read — the bridge state comes back
untouched — and each derived field is exactly its definition: `connected`
iff the registry is non-empty, `microphoneStreaming` iff some registered
session streams, `microphoneActive`/`speakerActive` iff the respective
timestamp is set and lies strictly within the 2-second window before
`now`. -/
theorem status_is_derived (br : Bridge) (now : Int) :
    (getStatus br now).1 = br ∧
      ((getStatus br now).2.connected = true ↔ br.clients ≠ []) ∧
      ((getStatus br now).2.microphoneStreaming = true ↔
        ∃ s ∈ br.clients, s.streaming = true) ∧
      ((getStatus br now).2.microphoneActive = true ↔
        ∃ t, br.lastMicrophoneAt = some t ∧ now - t < windowMicros) ∧
      ((getStatus br now).2.speakerActive = true ↔
        ∃ t, br.lastSpeakerAt = some t ∧ now - t < windowMicros) := by
  refine ⟨rfl, ?_, ?_, ?_, ?_⟩
  · cases h : br.clients <;> simp [getStatus, h]
  · simp [getStatus, List.any_eq_true]
  · cases h : br.lastMicrophoneAt <;> simp [getStatus, h]
  · cases h : br.lastSpeakerAt <;> simp [getStatus, h]

/-- C10: an accepted microphone chunk (non-empty, handler registered,
session streaming) records `lastMicrophoneAt := now` whether or not the
handler raises; the handler is invoked, its exception is caught (the receive
loop continues), and the status query at that instant reports the microphone
active even when forwarding failed. -/
theorem mic_timestamp_survives_handler_failure (br : Bridge) (s : Sess)
    (hasHandler handlerRaises : Bool) (data : Bytes) (now : Int)
    (hdata : data ≠ []) (hh : hasHandler = true) (hs : s.streaming = true) :
    (handleMicrophoneFrame br s hasHandler handlerRaises data
        now).1.lastMicrophoneAt = some now ∧
      BAct.micHandler data
        ∈ (handleMicrophoneFrame br s hasHandler handlerRaises data now).2.1 ∧
      (handleMicrophoneFrame br s hasHandler handlerRaises data now).2.2
        = true ∧
      (getStatus (handleMicrophoneFrame br s hasHandler handlerRaises data
          now).1 now).2.microphoneActive = true := by
  subst hh
  unfold handleMicrophoneFrame
  rw [if_neg hdata]
  simp only [Bool.not_true, if_false, hs]
  cases handlerRaises <;> simp [getStatus, windowMicros]

/-- A streaming registered session. -/
def streamingSess : Sess :=
  { id := 0, streaming := true, sendOk := true }

/-- Witness for C10: handler registered and raising, streaming session,
non-empty chunk at time 5 — the timestamp is recorded anyway. -/
theorem mic_timestamp_survives_handler_failure_witness :
    ([4] : Bytes) ≠ [] ∧ true = true ∧ streamingSess.streaming = true ∧
      (handleMicrophoneFrame quietBridge streamingSess true true [4]
          5).1.lastMicrophoneAt = some 5 :=
  ⟨by decide, rfl, by decide,
    (mic_timestamp_survives_handler_failure quietBridge streamingSess true
      true [4] 5 (by decide) rfl (by decide)).1⟩
